import Mathlib

/-!
Shallow embedding of the crawling engine of the scu-intelligent-spider
repository: the retrying HTTP executor (`src/crawlers/base_crawler.py`),
the parsing helpers (`src/utils/web_parser.py`), the persistence shape
(`src/utils/file_handler.py`), and the two orchestrators
(`src/crawlers/news_crawler.py`, `src/crawlers/personnel_crawler.py`).

External collaborators (HTTP transport, the BeautifulSoup DOM engine, the
JSON decoder, the system clock and the file system) are modelled as
oracles/data: a fetch is a function from URL to an optional document, a
document is the record of what each CSS selector used by the code would
return, and an AJAX POST response is a value of an explicit datatype.
Timestamps are omitted (external real time); log calls are modelled, where
a claim mentions them, as a returned tag.
-/

/-! ### Python string primitives used by the source

All primitives recurse structurally over the character list of a string
(the library's byte-position implementations do not reduce inside the
kernel), with the semantics of the corresponding Python operation. -/

/-- `pat` is a leading segment of `l`. -/
def listStartsWith : List Char → List Char → Bool
  | _, [] => true
  | [], _ :: _ => false
  | c :: cs, p :: ps => c = p && listStartsWith cs ps

/-- Python `pat in s` run over character lists: some position of `l`
starts with `pat`. -/
def listContains (l pat : List Char) : Bool :=
  match l with
  | [] => decide (pat = [])
  | _ :: rest => listStartsWith l pat || listContains rest pat

/-- Python `pat in s` substring test. -/
def strContains (s pat : String) : Bool :=
  listContains s.data pat.data

/-- Python `s.startswith(pat)`. -/
def pyStartsWith (s pat : String) : Bool :=
  listStartsWith s.data pat.data

/-- Python `s.endswith(pat)`. -/
def pyEndsWith (s pat : String) : Bool :=
  listStartsWith s.data.reverse pat.data.reverse

/-- Python `s.lower()` (ASCII range, the one exercised by file
extensions). -/
def pyLower (s : String) : String :=
  ⟨s.data.map Char.toLower⟩

/-- Python `str.strip()` (no argument): trim whitespace from both ends. -/
def trimList (l : List Char) : List Char :=
  ((l.dropWhile Char.isWhitespace).reverse.dropWhile Char.isWhitespace).reverse

/-- Python `s.strip()`. -/
def pyStrip (s : String) : String := ⟨trimList s.data⟩

/-- Python `str.split()` (no argument): split on whitespace runs, dropping
empty pieces.  `acc` holds the current word reversed. -/
def splitWsAux : List Char → List Char → List (List Char)
  | [], acc => if acc = [] then [] else [acc.reverse]
  | c :: rest, acc =>
    if Char.isWhitespace c then
      if acc = [] then splitWsAux rest []
      else acc.reverse :: splitWsAux rest []
    else splitWsAux rest (c :: acc)

/-- `" ".join(...)` over character lists. -/
def intercalateSpace : List (List Char) → List Char
  | [] => []
  | [l] => l
  | l :: rest => l ++ ' ' :: intercalateSpace rest

/-- Python `" ".join(s.split())`: collapse internal whitespace to single
spaces (used by `NewsCrawler` to clean article titles). -/
def pyCollapseWs (s : String) : String :=
  ⟨intercalateSpace (splitWsAux s.data [])⟩

/-- Python `s.split(sep)` with a non-empty separator, fuelled so the
recursion is structural (each step consumes at least one character; the
fuel `length + 1` always suffices). -/
def splitOnFuel (sep : List Char) : Nat → List Char → List Char → List (List Char)
  | 0, l, acc => [acc.reverse ++ l]
  | _ + 1, [], acc => [acc.reverse]
  | fuel + 1, c :: rest, acc =>
    if sep ≠ [] ∧ listStartsWith (c :: rest) sep then
      acc.reverse :: splitOnFuel sep fuel ((c :: rest).drop sep.length) []
    else splitOnFuel sep fuel rest (c :: acc)

/-- Python `s.split(sep)` for a non-empty separator string. -/
def pySplitOn (s sep : String) : List String :=
  (splitOnFuel sep.data (s.data.length + 1) s.data []).map (fun l => ⟨l⟩)

/-- Python `"".join(parts)`. -/
def pyJoin (parts : List String) : String :=
  parts.foldl (fun a b => a ++ b) ""

/-- Strip, from both ends of a character list, every character belonging to
`cs` (Python `str.strip(chars)`). -/
def stripCharsList (cs : List Char) (l : List Char) : List Char :=
  ((l.dropWhile (fun c => c ∈ cs)).reverse.dropWhile (fun c => c ∈ cs)).reverse

/-- Python `s.strip(chars)`. -/
def pyStripChars (cs : List Char) (s : String) : String :=
  ⟨stripCharsList cs s.data⟩

/-- Lexicographic-by-codepoint comparison of character lists, the order
Python `sorted` applies to strings. -/
def charListLt : List Char → List Char → Bool
  | [], [] => false
  | [], _ :: _ => true
  | _ :: _, [] => false
  | a :: as, b :: bs => a < b || (a = b && charListLt as bs)

/-- Lexicographic `≤` on strings as a Bool. -/
def stringLe (a b : String) : Bool := charListLt a.data b.data || a = b

/-! ### DOM model

An `Anchor` is the projection of a BeautifulSoup `<a>` node onto the
attributes the source reads: `get("href")`, `get("onclick")`, `.text`,
`get("data-request")`, `get("data-request-data")`. -/

structure Anchor where
  href : Option String
  onclick : Option String
  text : String
  dataRequest : Option String
  dataRequestData : Option String
deriving DecidableEq

/-- A fetched+parsed page of the personnel site, projected onto the four
selector queries the personnel crawler performs on it:
`a[href*='?page=']` (we keep every anchor href; the selector filter is
applied in `get_max_page`), `.group a`, `tbody a`, `#rndbox_body a`. -/
structure Doc where
  allAnchorHrefs : List String
  groupAnchors : List Anchor
  tbodyAnchors : List Anchor
  rndboxAnchors : List Anchor
deriving DecidableEq

/-! ### WebParser.get_max_page (src/utils/web_parser.py lines 30-57) -/

/-- Digit run to a natural number (Python `int` on a digit string). -/
def digitsToNat (ds : List Char) : Nat :=
  ds.foldl (fun n d => n * 10 + (d.toNat - 48)) 0

/-- `re.search(r"[?&]page=(\d+)", href)`: scan positions left to right; at
the first position holding `?page=<digits>` or `&page=<digits>` return the
maximal (greedy) ASCII digit run as a number. -/
def findPageMatch : List Char → Option Nat
  | [] => none
  | c :: rest =>
    if c = '?' ∨ c = '&' then
      match rest with
      | 'p' :: 'a' :: 'g' :: 'e' :: '=' :: tail =>
        let ds := tail.takeWhile Char.isDigit
        if ds = [] then findPageMatch rest else some (digitsToNat ds)
      | _ => findPageMatch rest
    else findPageMatch rest

/-- The page number `re.search` extracts from one href, if any. -/
def extract_page_number (href : String) : Option Nat :=
  findPageMatch href.data

/-- The list `pages` computed inside `get_max_page`: page numbers of the
anchors selected by `a[href*='?page=']`. -/
def page_numbers (soup : Doc) : List Nat :=
  (soup.allAnchorHrefs.filter (fun h => strContains h "?page=")).filterMap
    extract_page_number

/-- `WebParser.get_max_page`: `max(pages) if pages else 1`. -/
def get_max_page (soup : Doc) : Nat :=
  let pages := page_numbers soup
  if pages = [] then 1 else pages.foldl Nat.max 0

/-! ### WebParser.extract_href (src/utils/web_parser.py lines 59-87) -/

/-- The character set of `strip("'\"; ")` in `extract_href`
(apostrophe, double quote, semicolon, space). -/
def onclickStripChars : List Char := "\x27\x22; ".data

/-- `WebParser.extract_href`: read `href`; if it is the placeholder `#`,
extract the target of an inline `location.href=` redirect from `onclick`
(taking what follows the first occurrence, up to the next occurrence, and
stripping quote/semicolon/space characters); a root-relative result is
prefixed with `base_url`.  Mirrors Python truthiness: an empty string is
returned unchanged (it is falsy), and a missing href yields `none`. -/
def extract_href (node : Anchor) (base_url : String) : Option String :=
  let href := node.href
  let href :=
    if href = some "#" then
      let onclick := (node.onclick).getD ""
      if strContains onclick "location.href=" then
        some (pyStripChars onclickStripChars
          (((pySplitOn onclick "location.href=").drop 1).headD ""))
      else href
    else href
  match href with
  | none => none
  | some h => if h ≠ "" ∧ pyStartsWith h "/" then some (base_url ++ h) else some h

/-! ### WebParser.filter_navigation_links (src/utils/web_parser.py 168-186) -/

/-- The fixed `navigation_texts` set of the source. -/
def navigationTexts : List String :=
  ["2", "»", "«", "‹", "›", "下一頁", "上一頁", "首頁", "末頁"]

/-- `WebParser.filter_navigation_links`: keep nodes whose stripped text is
longer than 3 characters and is not a pagination glyph/label. -/
def filter_navigation_links (nodes : List Anchor) : List Anchor :=
  nodes.filter (fun node =>
    (pyStrip node.text).length > 3 && !(navigationTexts.contains (pyStrip node.text)))

/-! ### WebParser.fetch_ajax_attachments (src/utils/web_parser.py 89-166) -/

/-- The outcome of the same-origin POST plus JSON decode, seen from the
code: a transport error (`requests.RequestException`, including non-2xx
from `raise_for_status`), a body that is not valid JSON
(`json.JSONDecodeError`), or a decoded JSON object.  A decoded object is
the map from keys to the anchors-with-href (`find_all("a", href=True)`)
of the HTML fragment stored under that key. -/
inductive AjaxResponse where
  | transportError
  | invalidJson
  | jsonObj (fields : List (String × List String))
deriving DecidableEq

/-- The log line `fetch_ajax_attachments` emits, one distinct constructor
per distinct reason in the source. -/
inductive AjaxLog where
  | okAttachments
  | noAttachmentsForTitle
  | missingRequestData
  | unparsableRequestData
  | requestFailed
  | invalidJsonBody
  | missingFragmentKey
deriving DecidableEq

/-- `dict(part.split(":") for part in data_str.split(","))`: every
comma-separated part must split on `:` into exactly two pieces, else the
`dict` constructor raises (caught by the source and logged). -/
def parse_request_data (data_str : String) : Option (List (String × String)) :=
  let splits := (pySplitOn data_str ",").map (fun part => pySplitOn part ":")
  if splits.all (fun l => l.length = 2) then
    some (splits.filterMap (fun l =>
      match l with
      | [a, b] => some (a, b)
      | _ => none))
  else none

/-- `WebParser.fetch_ajax_attachments`.  `post` is the transport oracle for
`session.post(current_page_url, headers=..., data=parts)` composed with
`json.loads`.  Every failure path of the source returns `[]` (the
function never lets an exception escape: its body is wrapped in
`try/except` arms returning `[]`); the second component is the log tag. -/
def fetch_ajax_attachments (node : Anchor) (base_url current_page_url : String)
    (title : String) (doc_extensions : List String)
    (post : String → List (String × String) → AjaxResponse) :
    List String × AjaxLog :=
  let _ := title  -- used only in log messages in the source
  match node.dataRequestData with
  | none => ([], .missingRequestData)
  | some data_str =>
    if data_str = "" then ([], .missingRequestData)
    else
      match parse_request_data data_str with
      | none => ([], .unparsableRequestData)
      | some parts =>
        match post current_page_url parts with
        | .transportError => ([], .requestFailed)
        | .invalidJson => ([], .invalidJsonBody)
        | .jsonObj fields =>
          match fields.lookup "#rndbox_body" with
          | none => ([], .missingFragmentKey)
          | some fragmentHrefs =>
            let found := fragmentHrefs.filterMap (fun href =>
              if doc_extensions.any (fun ext => pyEndsWith (pyLower href) ext) then
                some (if pyStartsWith href "http" then href else base_url ++ href)
              else none)
            (found, if found = [] then .noAttachmentsForTitle else .okAttachments)

/-! ### Retry executor: BaseCrawler.make_request (src/crawlers/base_crawler.py 64-107)

The transport is an oracle giving the outcome of the `attempt`-th
`session.request` + `raise_for_status` pair: every timeout, connection
failure and non-2xx status is a `requests.RequestException`, which is the
only class the source catches, so an attempt outcome is success-with-body
or failure.  Side effects (the request itself and the two `time.sleep`
calls) are modelled as an event trace. -/

inductive AttemptOutcome where
  | ok (body : String)
  | failed
deriving DecidableEq

inductive ReqEvent where
  | attemptReq (n : Nat)
  | sleepRetry
  | sleepPostSuccess
deriving DecidableEq

/-- The `for attempt in range(self.max_retries + 1)` loop of
`make_request`, with `remaining` iterations left.  On success: an optional
politeness sleep (`request_delay > 0`), then return the response.  On
failure with attempts remaining: sleep `retry_delay` and continue;
on the last attempt: return `None`. -/
def make_request_go (oracle : Nat → AttemptOutcome) (request_delay_pos : Bool) :
    Nat → Nat → Option String × List ReqEvent
  | _, 0 => (none, [])
  | attempt, remaining + 1 =>
    match oracle attempt with
    | .ok body =>
      (some body, .attemptReq attempt ::
        (if request_delay_pos then [.sleepPostSuccess] else []))
    | .failed =>
      match remaining with
      | 0 => (none, [.attemptReq attempt])
      | r + 1 =>
        let rest := make_request_go oracle request_delay_pos (attempt + 1) (r + 1)
        (rest.1, .attemptReq attempt :: .sleepRetry :: rest.2)

/-- `BaseCrawler.make_request`: attempts `0 .. max_retries` inclusive. -/
def make_request (oracle : Nat → AttemptOutcome) (max_retries : Nat)
    (request_delay_pos : Bool) : Option String × List ReqEvent :=
  make_request_go oracle request_delay_pos 0 (max_retries + 1)

/-- The event trace of a run whose every attempt fails, starting at
attempt index `a` with `n` retries left: requests separated by one
retry sleep each. -/
def allFailEvents : Nat → Nat → List ReqEvent
  | a, 0 => [.attemptReq a]
  | a, n + 1 => .attemptReq a :: .sleepRetry :: allFailEvents (a + 1) n

/-- Number of HTTP attempts in a trace. -/
def countAttempts (evs : List ReqEvent) : Nat :=
  evs.countP (fun e => match e with | .attemptReq _ => true | _ => false)

/-- Number of retry sleeps in a trace. -/
def countRetrySleeps (evs : List ReqEvent) : Nat :=
  evs.countP (fun e => match e with | .sleepRetry => true | _ => false)

/-! ### News orchestrator (src/crawlers/news_crawler.py)

A news-site page is projected onto the two selector queries the news
crawler performs: `tbody a` on listing pages and `#article_block p`
(paragraph texts) on article pages. -/

structure NewsDoc where
  tbodyAnchors : List Anchor
  articleParagraphTexts : List String
deriving DecidableEq

/-- A kept article record (`timestamp` field omitted: external clock). -/
structure Article where
  url : String
  title : String
  content : String
deriving DecidableEq

/-- The news environment: the configured listing URL
(`news_url + category_url`), the `max_pages` ceiling, and the fetch
oracle standing for `get_page_content` (a `None` models a transport
failure after retries, or an unparsable body). -/
structure NewsEnv where
  categoryUrl : String
  maxPages : Nat
  fetch : String → Option NewsDoc

/-- `NewsCrawler._crawl_article_content`: fetch the article page, collect
the non-empty stripped paragraph texts under `#article_block`, concatenate
with no separator; `None` (skip) when the fetch fails, there are no
paragraphs, or the concatenation is empty. -/
def crawl_article_content (env : NewsEnv) (article_url title : String) :
    Option Article :=
  match env.fetch article_url with
  | none => none
  | some soup =>
    let content_nodes := soup.articleParagraphTexts
    if content_nodes = [] then none
    else
      let content_texts := content_nodes.filterMap (fun t =>
        if pyStrip t = "" then none else some (pyStrip t))
      let combined_content := pyJoin content_texts
      if combined_content = "" then none
      else some ⟨article_url, title, combined_content⟩

/-- `NewsCrawler._crawl_news_page`: fetch `category_url?page=<n>`, read the
`tbody a` anchors, keep pairs with a truthy href and a truthy stripped
title (title whitespace-collapsed), then crawl each article, keeping the
successful ones.  Every failure inside returns `[]`. -/
def crawl_news_page (env : NewsEnv) (page : Nat) : List Article :=
  let page_url := env.categoryUrl ++ "?page=" ++ toString page
  match env.fetch page_url with
  | none => []
  | some soup =>
    let article_links := soup.tbodyAnchors
    if article_links = [] then []
    else
      let articles_data := article_links.filterMap (fun link =>
        match link.href with
        | none => none
        | some article_url =>
          let article_title := pyStrip link.text
          if article_url ≠ "" ∧ article_title ≠ "" then
            some (article_url, pyCollapseWs article_title)
          else none)
      articles_data.filterMap (fun ad => crawl_article_content env ad.1 ad.2)

inductive NewsResult where
  | failure (error : String)
  | success (total_pages total_articles : Nat)
deriving DecidableEq

/-- The `for page in range(1, max_pages + 1)` loop of `NewsCrawler.crawl`.
`lastPage` is the current value of the Python loop variable `page` (used
after the loop for `total_pages`).  Returns (final `page` value, total
articles accumulated, ghost trace of the listing pages processed — each
processed page issues exactly one listing fetch).  A page with zero
articles breaks out of the loop. -/
def news_loop (env : NewsEnv) (lastPage : Nat) : List Nat → Nat × Nat × List Nat
  | [] => (lastPage, 0, [])
  | p :: rest =>
    let page_articles := crawl_news_page env p
    if page_articles = [] then (p, page_articles.length, [p])
    else
      let r := news_loop env p rest
      (r.1, page_articles.length + r.2.1, p :: r.2.2)

/-- `NewsCrawler.crawl`: iterate pages 1..max_pages with the empty-page
stopping rule, then report `{success: True, total_pages: page,
total_articles}`.  With `max_pages = 0` the loop body never runs and the
final read of the loop variable raises `NameError`, caught by the
enclosing `except` which returns `{success: False, error}`.  (The
`_save_results` call persists to the external sink and cannot change the
result: it catches its own exceptions.)  The second component is the ghost
trace of listing pages fetched. -/
def news_crawl (env : NewsEnv) : NewsResult × List Nat :=
  if env.maxPages = 0 then (.failure "NameError: page", [])
  else
    let r := news_loop env 0 (List.range' 1 env.maxPages)
    (.success r.1 r.2.1, r.2.2)

/-! ### Personnel orchestrator (src/crawlers/personnel_crawler.py)

Run state: `pdf_links_set` (a Python `set`, modelled as a duplicate-free
list in insertion order — `add` is a no-op on a present element) and
`attachments_data` (a `defaultdict(list)` from document title to its URL
list, modelled as an association list; an entry is created at the first
append for its title, which per the source coincides with the first
membership probe that can append).  `examined` is a ghost trace recording
every truthy URL the `for url in urls` loop examines (duplicates
included); it does not exist in the source and does not influence the
other fields — it only lets the dedup claims mention "the URLs resolved
in the run". -/

structure PState where
  pdfLinksSet : List String
  attachmentsData : List (String × List String)
  examined : List String
deriving DecidableEq

def initPState : PState := ⟨[], [], []⟩

/-- `self.attachments_data[title]` read access (`defaultdict`: missing key
reads as `[]`). -/
def alookup (m : List (String × List String)) (k : String) : List String :=
  (m.lookup k).getD []

/-- `self.attachments_data[title].append(url)`: append to the title's
list, creating the entry (at the end, i.e. in first-touch order) when
absent. -/
def aappend (m : List (String × List String)) (k v : String) :
    List (String × List String) :=
  match m with
  | [] => [(k, [v])]
  | (k', l) :: rest =>
    if k' = k then (k', l ++ [v]) :: rest else (k', l) :: aappend rest k v

/-- The body of `for url in urls:` in `PersonnelCrawler._crawl_page`:
`if url and url not in self.attachments_data[document_title]`, then append
to the title's list, add to the global set and bump the tally; otherwise
silently skip. -/
def record_url (st : PState) (count : Nat) (title url : String) :
    PState × Nat :=
  if url = "" then (st, count)
  else
    let st := { st with examined := st.examined ++ [url] }
    if url ∈ alookup st.attachmentsData title then (st, count)
    else
      ({ st with
          attachmentsData := aappend st.attachmentsData title url,
          pdfLinksSet :=
            if url ∈ st.pdfLinksSet then st.pdfLinksSet
            else st.pdfLinksSet ++ [url] },
        count + 1)

/-- The personnel environment: configuration values plus the fetch and
AJAX-POST transport oracles.  `menuUrl` is `base_url +
config("websites.personnel.menu_url")`. -/
structure PersonnelEnv where
  baseUrl : String
  menuUrl : String
  docExtensions : List String
  fetch : String → Option Doc
  ajaxPost : String → List (String × String) → AjaxResponse

/-- `PersonnelCrawler._crawl_page`: fetch the page (failure → 0 documents);
take `tbody a`, or if that is empty `#rndbox_body a` (two-step fallback,
never merged); filter navigation chrome; per node, resolve URLs via the
AJAX resolver when it carries the `data-request` marker, else via
`extract_href` (a falsy href yields no URL); record each URL.  Returns the
updated state and the page's document tally. -/
def crawl_page (env : PersonnelEnv) (st : PState) (page_url category_title : String) :
    PState × Nat :=
  let _ := category_title  -- used only in log messages in the source
  match env.fetch page_url with
  | none => (st, 0)
  | some page_soup =>
    let inner_links :=
      if page_soup.tbodyAnchors = [] then page_soup.rndboxAnchors
      else page_soup.tbodyAnchors
    let filtered_links := filter_navigation_links inner_links
    filtered_links.foldl (fun acc node =>
      let document_title := pyStrip node.text
      let urls :=
        if node.dataRequest = some "web_listcomponent::onAttachmentDetail" then
          (fetch_ajax_attachments node env.baseUrl page_url document_title
            env.docExtensions env.ajaxPost).1
        else
          match extract_href node env.baseUrl with
          | some href => if href ≠ "" then [href] else []
          | none => []
      urls.foldl (fun a url => record_url a.1 a.2 document_title url) acc)
      (st, 0)

/-- `PersonnelCrawler._crawl_category`: a `None` href makes
`href.startswith` raise, caught by the category-level `except` (0
documents); build the absolute category URL; fetch page 1 to learn
`max_page` (fetch failure → 0 documents); then crawl
`category_url?page=1 .. ?page=max_page`, summing tallies. -/
def crawl_category (env : PersonnelEnv) (st : PState) (title : String)
    (href : Option String) : PState × Nat :=
  match href with
  | none => (st, 0)
  | some href =>
    let _ := title
    let category_url :=
      if pyStartsWith href "http" then href else env.baseUrl ++ href
    match env.fetch category_url with
    | none => (st, 0)
    | some first_page_soup =>
      let max_page := get_max_page first_page_soup
      (List.range' 1 max_page).foldl (fun acc page =>
        let page_url := category_url ++ "?page=" ++ toString page
        let r := crawl_page env acc.1 page_url title
        (r.1, acc.2 + r.2)) (st, 0)

/-- `PersonnelCrawler._parse_category_links`: `.group a` anchors zipped as
(stripped text, raw href — possibly `None`). -/
def parse_category_links (soup : Doc) : List (String × Option String) :=
  soup.groupAnchors.map (fun node => (pyStrip node.text, node.href))

inductive PersonnelResult where
  | failure (error : String)
  | success (total_categories total_documents unique_pdf_links : Nat)
deriving DecidableEq

/-- What `PersonnelCrawler._save_results` hands to the persistence sink:
the `pdf_links.txt` line list — `FileHandler.save_lines_to_file(...,
sort_lines=True)` sorts the set's elements — and the `personnel_data.json`
object, whose `total_documents` field is `len(self.pdf_links_set)`. -/
structure SavedPersonnel where
  pdfLines : List String
  categories : List (String × List String)
  totalDocuments : Nat
deriving DecidableEq

def save_results (st : PState) : SavedPersonnel :=
  { pdfLines := st.pdfLinksSet.insertionSort (fun a b => stringLe a b = true),
    categories := st.attachmentsData,
    totalDocuments := st.pdfLinksSet.length }

/-- The full outcome of one `PersonnelCrawler.crawl()` call: the returned
result dict, the final run state, and the persisted artefacts (`none` on
the terminal-failure paths, which return before `_save_results`). -/
structure PersonnelOutcome where
  result : PersonnelResult
  state : PState
  saved : Option SavedPersonnel

/-- `PersonnelCrawler.crawl`: menu fetch failure is terminal; an empty
category-link list is terminal; otherwise crawl every category (failures
isolated inside `_crawl_category`), persist, and report
`{success: True, total_categories, total_documents, unique_pdf_links}`. -/
def personnel_crawl (env : PersonnelEnv) : PersonnelOutcome :=
  match env.fetch env.menuUrl with
  | none => ⟨.failure "無法取得主選單頁面", initPState, none⟩
  | some menu_soup =>
    let category_links := parse_category_links menu_soup
    if category_links = [] then ⟨.failure "未找到任何類別連結", initPState, none⟩
    else
      let r := category_links.foldl (fun acc tl =>
        let c := crawl_category env acc.1 tl.1 tl.2
        (c.1, acc.2 + c.2)) (initPState, 0)
      ⟨.success category_links.length r.2 r.1.pdfLinksSet.length,
        r.1, some (save_results r.1)⟩

/-! ### Concrete fixtures used by counterexamples and witnesses -/

/-- News run whose every fetch fails — in particular listing page 1. -/
def envNewsPage1Fails : NewsEnv :=
  { categoryUrl := "https://news.scu.example/list",
    maxPages := 5,
    fetch := fun _ => none }

/-- News environment for the stopping heuristic: `max_pages = 10`, pages 1
and 2 each carry one article with real content, page 3 is an empty
listing. -/
def envNewsStops : NewsEnv :=
  { categoryUrl := "L",
    maxPages := 10,
    fetch := fun u =>
      if u = "L?page=1" then
        some ⟨[⟨some "A1", none, "First article headline", none, none⟩], []⟩
      else if u = "L?page=2" then
        some ⟨[⟨some "A2", none, "Second article headline", none, none⟩], []⟩
      else if u = "L?page=3" then some ⟨[], []⟩
      else if u = "A1" then some ⟨[], ["Body one"]⟩
      else if u = "A2" then some ⟨[], ["Body two"]⟩
      else none }

/-- A menu page whose `.group a` selector matches nothing. -/
def menuEmptyDoc : Doc := ⟨[], [], [], []⟩

/-- Personnel run where the menu page fetch succeeds but yields zero
category anchors. -/
def envMenuNoCategories : PersonnelEnv :=
  { baseUrl := "https://p",
    menuUrl := "https://p/menu",
    docExtensions := [".pdf"],
    fetch := fun u => if u = "https://p/menu" then some menuEmptyDoc else none,
    ajaxPost := fun _ _ => .transportError }

/-- Menu with two categories for the partial-failure scenario. -/
def menuTwoCats : Doc :=
  ⟨[],
    [⟨some "/catA", none, "Category Alpha", none, none⟩,
     ⟨some "/catB", none, "Category Beta", none, none⟩],
    [], []⟩

/-- Category A's front page: its pagination anchors reference pages 1 and
2, so `get_max_page` resolves 2. -/
def catAFront : Doc := ⟨["/catA?page=1", "/catA?page=2"], [], [], []⟩

/-- Category A's listing page: three attachment links to distinct PDFs
under a single document title. -/
def catAPage : Doc :=
  ⟨[], [],
    [⟨some "/d1.pdf", none, "Regulation Document", none, none⟩,
     ⟨some "/d2.pdf", none, "Regulation Document", none, none⟩,
     ⟨some "/d3.pdf", none, "Regulation Document", none, none⟩],
    []⟩

/-- The scenario environment: category A serves the same three URLs on
both of its pages; category B's page fetch fails entirely. -/
def envTwoCats : PersonnelEnv :=
  { baseUrl := "https://p",
    menuUrl := "https://p/menu",
    docExtensions := [".pdf"],
    fetch := fun u =>
      if u = "https://p/menu" then some menuTwoCats
      else if u = "https://p/catA" then some catAFront
      else if u = "https://p/catA?page=1" then some catAPage
      else if u = "https://p/catA?page=2" then some catAPage
      else none,
    ajaxPost := fun _ _ => .transportError }

/-- Anchors exercising every `extract_href` case. -/
def anchorRootRel : Anchor := ⟨some "/a/b", none, "", none, none⟩
def anchorAbsolute : Anchor := ⟨some "https://y/z", none, "", none, none⟩
def anchorHashOnclick : Anchor :=
  ⟨some "#", some "location.href=\x27/c\x27", "", none, none⟩
def anchorHashPlain : Anchor := ⟨some "#", none, "", none, none⟩
def anchorNoHref : Anchor := ⟨none, none, "", none, none⟩

/-- AJAX nodes: marker present but the metadata payload missing /
malformed / well-formed. -/
def ajaxNodeNoData : Anchor :=
  ⟨some "#", none, "Attachment row", some "web_listcomponent::onAttachmentDetail", none⟩
def ajaxNodeBadData : Anchor :=
  ⟨some "#", none, "Attachment row", some "web_listcomponent::onAttachmentDetail",
    some "id:7:extra"⟩
def ajaxNodeGoodData : Anchor :=
  ⟨some "#", none, "Attachment row", some "web_listcomponent::onAttachmentDetail",
    some "id:7,mode:list"⟩

/-- Pagination anchors carrying page values {1,3,5,2,7,4} (shuffled). -/
def docSevenPages : Doc :=
  ⟨["/l?page=1", "/l?page=3", "/l?page=5", "/l?page=2", "/l?page=7", "/l?page=4"],
    [], [], []⟩

/-- A listing with anchors but no page-parameter anchor. -/
def docNoPageAnchors : Doc := ⟨["/l", "/m?x=1"], [], [], []⟩

/-- Everything-fails retry oracle. -/
def alwaysFailOracle : Nat → AttemptOutcome := fun _ => .failed

/-! ### Invariants of the personnel run state -/

/-- The dedup invariant of one personnel run: the global URL set is
duplicate-free; titles are unique in the accumulator; every per-title list
is duplicate-free; every recorded URL is in the global set; and the global
set holds exactly the URLs examined so far (the distinct URLs resolved in
the run). -/
def PInv (st : PState) : Prop :=
  st.pdfLinksSet.Nodup ∧
  (st.attachmentsData.map Prod.fst).Nodup ∧
  (∀ p ∈ st.attachmentsData, (p.2 : List String).Nodup) ∧
  (∀ p ∈ st.attachmentsData, ∀ u ∈ p.2, u ∈ st.pdfLinksSet) ∧
  (∀ u, u ∈ st.pdfLinksSet ↔ u ∈ st.examined)

/-- Per-step contract of the crawl folds: the dedup invariant is
preserved, and the global set grows by at most the document tally (the
tally counts every append, the set ignores cross-title repeats). -/
def StepRel (a b : PState × Nat) : Prop :=
  (PInv a.1 → PInv b.1) ∧
  ((b.1.pdfLinksSet.length : Int) - b.2 ≤ (a.1.pdfLinksSet.length : Int) - a.2)

/-! ## Theorems

Shared helper lemmas first, then one theorem per claim (with its witness
or counterexample where required). -/

/-- A reflexive transitive relation that holds across every step of a
fold holds across the whole fold. -/
theorem foldl_rel {α β : Type} (R : α → α → Prop) (hrefl : ∀ a, R a a)
    (htrans : ∀ a b c, R a b → R b c → R a c)
    (f : α → β → α) (hstep : ∀ a b, R a (f a b)) :
    ∀ (l : List β) (a : α), R a (l.foldl f a)
  | [], a => hrefl a
  | b :: l, a =>
    htrans _ _ _ (hstep a b) (foldl_rel R hrefl htrans f hstep l (f a b))

theorem stepRel_refl (a : PState × Nat) : StepRel a a :=
  ⟨id, le_refl _⟩

theorem stepRel_trans (a b c : PState × Nat) (h₁ : StepRel a b) (h₂ : StepRel b c) :
    StepRel a c :=
  ⟨fun h => h₂.1 (h₁.1 h), le_trans h₂.2 h₁.2⟩

/-- `List.lookup` only returns pairs of the list. -/
theorem mem_of_lookup {β : Type} (l : List (String × β)) (k : String) (v : β)
    (h : l.lookup k = some v) : (k, v) ∈ l := by
  induction l with
  | nil => simp [List.lookup] at h
  | cons p rest ih =>
    rw [List.lookup] at h
    by_cases hk : k == p.1
    · simp only [hk, if_pos] at h
      have hk' : k = p.1 := eq_of_beq hk
      have hv : p.2 = v := by simpa using h
      have hp : p = (k, v) := by cases p; simp_all
      rw [hp]; exact List.mem_cons_self _ _
    · simp only [hk, Bool.false_eq_true, if_neg, if_false] at h
      exact List.mem_cons_of_mem _ (ih h)

/-- When `alookup` is non-trivial its pair is in the map. -/
theorem alookup_mem (m : List (String × List String)) (k : String)
    (h : alookup m k ≠ []) : (k, alookup m k) ∈ m := by
  unfold alookup at *
  cases hl : m.lookup k with
  | none => simp [hl] at h
  | some l => simp only [Option.getD_some]; exact mem_of_lookup m k l hl

/-- Every key of `aappend m k v` is a key of `m` or is `k`. -/
theorem aappend_keys (m : List (String × List String)) (k v : String) :
    ∀ p ∈ aappend m k v, p.1 ∈ m.map Prod.fst ∨ p.1 = k := by
  induction m with
  | nil => intro p hp; simp [aappend] at hp; simp [hp]
  | cons q rest ih =>
    intro p hp
    rw [aappend] at hp
    by_cases hq : q.1 = k
    · simp only [hq, if_pos] at hp
      rcases List.mem_cons.mp hp with h | h
      · rw [h]; right; exact rfl
      · left
        rw [List.map_cons]
        exact List.mem_cons_of_mem _ (List.mem_map.mpr ⟨p, h, rfl⟩)
    · simp only [hq, if_neg, if_false] at hp
      rcases List.mem_cons.mp hp with h | h
      · rw [h]; left; rw [List.map_cons]; exact List.mem_cons_self _ _
      · rcases ih p h with h' | h'
        · left; rw [List.map_cons]; exact List.mem_cons_of_mem _ h'
        · right; exact h'

/-- `aappend` keeps the keys duplicate-free. -/
theorem aappend_keys_nodup (m : List (String × List String)) (k v : String)
    (h : (m.map Prod.fst).Nodup) : ((aappend m k v).map Prod.fst).Nodup := by
  induction m with
  | nil => simp [aappend]
  | cons q rest ih =>
    rw [aappend]
    by_cases hq : q.1 = k
    · simp only [hq, if_pos, List.map_cons]
      simpa [hq] using h
    · simp only [hq, if_neg, if_false, List.map_cons, List.nodup_cons] at h ⊢
      refine ⟨fun hmem => ?_, ih h.2⟩
      rcases List.mem_map.mp hmem with ⟨p, hp, hfst⟩
      rcases aappend_keys rest k v p hp with h' | h'
      · exact h.1 (hfst ▸ h')
      · exact hq (hfst ▸ h')

/-- Membership in `aappend m k v` when the keys of `m` are unique: a pair
is an untouched pair of `m` with a different key, or it is `k`'s pair with
`v` appended. -/
theorem aappend_mem (m : List (String × List String)) (k v : String)
    (hnd : (m.map Prod.fst).Nodup) :
    ∀ p ∈ aappend m k v,
      (p ∈ m ∧ p.1 ≠ k) ∨ p = (k, alookup m k ++ [v]) := by
  induction m with
  | nil =>
    intro p hp
    simp [aappend] at hp
    right; simp [hp, alookup]
  | cons q rest ih =>
    intro p hp
    rw [aappend] at hp
    by_cases hq : q.1 = k
    · simp only [hq, if_pos] at hp
      rcases List.mem_cons.mp hp with h | h
      · right
        have : alookup (q :: rest) k = q.2 := by
          cases q with
          | mk qk ql =>
            simp only at hq
            have hbe : (k == qk) = true := beq_iff_eq.mpr hq.symm
            simp [alookup, List.lookup, hbe]
        rw [this, h]
      · left
        simp only [List.map_cons, List.nodup_cons] at hnd
        refine ⟨List.mem_cons_of_mem _ h, fun hk => ?_⟩
        exact hnd.1 (by rw [hq]; rw [← hk]; exact List.mem_map.mpr ⟨p, h, rfl⟩)
    · simp only [hq, if_neg, if_false] at hp
      rcases List.mem_cons.mp hp with h | h
      · left; exact ⟨by rw [h]; exact List.mem_cons_self _ _, by rw [h]; exact hq⟩
      · simp only [List.map_cons, List.nodup_cons] at hnd
        rcases ih hnd.2 p h with ⟨hm, hk⟩ | heq
        · exact Or.inl ⟨List.mem_cons_of_mem _ hm, hk⟩
        · right
          have : alookup (q :: rest) k = alookup rest k := by
            cases q with
            | mk qk ql =>
              simp only at hq
              have hbe : (k == qk) = false :=
                beq_eq_false_iff_ne.mpr (fun he => hq he.symm)
              simp [alookup, List.lookup, hbe]
          rw [this]; exact heq

/-- `alookup` after `aappend` at the same key: the list with `v`
appended (keys unique). -/
theorem alookup_aappend_self (m : List (String × List String)) (k v : String) :
    alookup (aappend m k v) k = alookup m k ++ [v] := by
  induction m with
  | nil => simp [aappend, alookup, List.lookup]
  | cons q rest ih =>
    rw [aappend]
    by_cases hq : q.1 = k
    · cases q with
      | mk qk ql =>
        simp only at hq
        have hbe : (k == qk) = true := beq_iff_eq.mpr hq.symm
        simp [alookup, List.lookup, hbe, hq]
    · cases q with
      | mk qk ql =>
        simp only at hq
        have hbe : (k == qk) = false :=
          beq_eq_false_iff_ne.mpr (fun he => hq he.symm)
        simp only [hq, if_neg, if_false]
        simpa [alookup, List.lookup, hbe] using ih

/-- `record_url` on a falsy URL: skipped entirely. -/
theorem record_url_empty (st : PState) (count : Nat) (title : String) :
    record_url st count title "" = (st, count) := by
  simp [record_url]

/-- `record_url` on a URL already recorded for this title: only the ghost
trace grows. -/
theorem record_url_dup (st : PState) (count : Nat) (title url : String)
    (hu : url ≠ "") (hmem : url ∈ alookup st.attachmentsData title) :
    record_url st count title url =
      ({ st with examined := st.examined ++ [url] }, count) := by
  simp [record_url, hu, hmem]

/-- `record_url` on a URL new for this title: append to the title's list,
add to the set (no-op when present under another title), bump the tally. -/
theorem record_url_new (st : PState) (count : Nat) (title url : String)
    (hu : url ≠ "") (hmem : url ∉ alookup st.attachmentsData title) :
    record_url st count title url =
      ({ pdfLinksSet :=
            if url ∈ st.pdfLinksSet then st.pdfLinksSet
            else st.pdfLinksSet ++ [url],
          attachmentsData := aappend st.attachmentsData title url,
          examined := st.examined ++ [url] }, count + 1) := by
  simp [record_url, hu, hmem]

/-- One `record_url` step preserves the dedup invariant and the
set-vs-tally bound. -/
theorem record_url_step (st : PState) (count : Nat) (title url : String) :
    StepRel (st, count) (record_url st count title url) := by
  by_cases hu : url = ""
  · rw [hu, record_url_empty]; exact stepRel_refl _
  by_cases hmem : url ∈ alookup st.attachmentsData title
  · rw [record_url_dup st count title url hu hmem]
    constructor
    · rintro ⟨h1, h2, h3, h4, h5⟩
      refine ⟨h1, h2, h3, h4, fun u => ?_⟩
      simp only [List.mem_append, List.mem_singleton]
      constructor
      · intro hs; exact Or.inl ((h5 u).mp hs)
      · rintro (hs | rfl)
        · exact (h5 u).mpr hs
        · have hne : alookup st.attachmentsData title ≠ [] := by
            intro he; rw [he] at hmem; exact List.not_mem_nil _ hmem
          exact h4 _ (alookup_mem _ _ hne) u hmem
    · exact le_refl _
  · rw [record_url_new st count title url hu hmem]
    have hsub : ∀ u, u ∈ st.pdfLinksSet →
        u ∈ (if url ∈ st.pdfLinksSet then st.pdfLinksSet
             else st.pdfLinksSet ++ [url]) := by
      intro u hu'
      by_cases hin : url ∈ st.pdfLinksSet
      · simpa [hin] using hu'
      · simp [hin, List.mem_append, hu']
    have hurl : url ∈ (if url ∈ st.pdfLinksSet then st.pdfLinksSet
        else st.pdfLinksSet ++ [url]) := by
      by_cases hin : url ∈ st.pdfLinksSet
      · simp [hin]
      · simp [hin]
    constructor
    · rintro ⟨h1, h2, h3, h4, h5⟩
      refine ⟨?_, aappend_keys_nodup _ _ _ h2, ?_, ?_, ?_⟩
      · by_cases hin : url ∈ st.pdfLinksSet
        · simpa [hin] using h1
        · simp only [hin, if_neg, if_false]
          rw [List.nodup_append]
          exact ⟨h1, List.nodup_singleton _, by simpa using hin⟩
      · intro p hp
        rcases aappend_mem _ _ _ h2 p hp with ⟨hpm, _⟩ | rfl
        · exact h3 p hpm
        · simp only
          by_cases hne : alookup st.attachmentsData title = []
          · simp [hne]
          · rw [List.nodup_append]
            exact ⟨h3 _ (alookup_mem _ _ hne), List.nodup_singleton _,
              by simpa using hmem⟩
      · intro p hp u hu'
        rcases aappend_mem _ _ _ h2 p hp with ⟨hpm, _⟩ | rfl
        · exact hsub u (h4 p hpm u hu')
        · simp only at hu'
          rcases List.mem_append.mp hu' with h | h
          · have hne : alookup st.attachmentsData title ≠ [] := by
              intro he; rw [he] at h; exact List.not_mem_nil _ h
            exact hsub u (h4 _ (alookup_mem _ _ hne) u h)
          · rw [List.mem_singleton.mp h]; exact hurl
      · intro u
        simp only [List.mem_append, List.mem_singleton]
        constructor
        · intro hs
          by_cases hin : url ∈ st.pdfLinksSet
          · rw [if_pos hin] at hs; exact Or.inl ((h5 u).mp hs)
          · rw [if_neg hin] at hs
            rcases List.mem_append.mp hs with h | h
            · exact Or.inl ((h5 u).mp h)
            · exact Or.inr (List.mem_singleton.mp h)
        · rintro (hs | rfl)
          · exact hsub u ((h5 u).mpr hs)
          · exact hurl
    · simp only
      have : (if url ∈ st.pdfLinksSet then st.pdfLinksSet
          else st.pdfLinksSet ++ [url]).length ≤ st.pdfLinksSet.length + 1 := by
        by_cases hin : url ∈ st.pdfLinksSet
        · simp [hin]
        · simp [hin]
      push_cast
      omega

/-- A fold step of the shape `acc ↦ (new state, acc tally + page tally)`
satisfies `StepRel` whenever the underlying call does from a zero tally. -/
theorem sum_step_rel {γ : Type} (g : PState → γ → PState × Nat)
    (hg : ∀ st x, StepRel (st, 0) (g st x)) (a : PState × Nat) (x : γ) :
    StepRel a ((g a.1 x).1, a.2 + (g a.1 x).2) := by
  obtain ⟨h1, h2⟩ := hg a.1 x
  refine ⟨h1, ?_⟩
  simp only at h2 ⊢
  push_cast at h2 ⊢
  omega

/-- `_crawl_page` preserves the invariant and the set-vs-tally bound. -/
theorem crawl_page_step (env : PersonnelEnv) (st : PState)
    (page_url category_title : String) :
    StepRel (st, 0) (crawl_page env st page_url category_title) := by
  unfold crawl_page
  cases hf : env.fetch page_url with
  | none => exact stepRel_refl _
  | some soup =>
    exact foldl_rel StepRel stepRel_refl stepRel_trans _
      (fun a node =>
        foldl_rel StepRel stepRel_refl stepRel_trans _
          (fun b url => record_url_step b.1 b.2 _ url) _ a) _ _

/-- `_crawl_category` preserves the invariant and the set-vs-tally bound. -/
theorem crawl_category_step (env : PersonnelEnv) (st : PState) (title : String)
    (href : Option String) :
    StepRel (st, 0) (crawl_category env st title href) := by
  cases href with
  | none => exact stepRel_refl _
  | some h =>
    unfold crawl_category
    dsimp only
    cases hf : env.fetch (if pyStartsWith h "http" then h else env.baseUrl ++ h) with
    | none => exact stepRel_refl _
    | some first =>
      exact foldl_rel StepRel stepRel_refl stepRel_trans _
        (fun a page =>
          sum_step_rel
            (fun s p => crawl_page env s
              ((if pyStartsWith h "http" then h else env.baseUrl ++ h) ++
                "?page=" ++ toString p) title)
            (fun s p => crawl_page_step env s _ title) a page) _ _

/-- `PInv` holds of the fresh run state. -/
theorem pinv_init : PInv initPState := by
  refine ⟨List.nodup_nil, List.nodup_nil, ?_, ?_, ?_⟩ <;> simp [initPState]

/-- The categories fold of `PersonnelCrawler.crawl`, from the fresh
state: the invariant holds of the final state, and the unique-URL set is
no larger than the accumulated document tally. -/
theorem personnel_fold_bound (env : PersonnelEnv)
    (links : List (String × Option String)) :
    PInv (links.foldl (fun acc tl =>
        let c := crawl_category env acc.1 tl.1 tl.2
        (c.1, acc.2 + c.2)) (initPState, 0)).1 ∧
    (links.foldl (fun acc tl =>
        let c := crawl_category env acc.1 tl.1 tl.2
        (c.1, acc.2 + c.2)) (initPState, 0)).1.pdfLinksSet.length ≤
      (links.foldl (fun acc tl =>
        let c := crawl_category env acc.1 tl.1 tl.2
        (c.1, acc.2 + c.2)) (initPState, 0)).2 := by
  have hrel : StepRel (initPState, 0)
      (links.foldl (fun acc tl =>
        let c := crawl_category env acc.1 tl.1 tl.2
        (c.1, acc.2 + c.2)) (initPState, 0)) :=
    foldl_rel StepRel stepRel_refl stepRel_trans _
      (fun a tl =>
        sum_step_rel (fun (s : PState) (t : String × Option String) =>
            crawl_category env s t.1 t.2)
          (fun s t => crawl_category_step env s t.1 t.2) a tl) _ _
  refine ⟨hrel.1 pinv_init, ?_⟩
  have h2 := hrel.2
  have h0 : (((initPState, 0).1.pdfLinksSet.length : Int) - ((initPState, 0).2 : Nat)) = 0 := by
    norm_num [initPState]
  rw [h0] at h2
  omega

/-- Master lemma about one `PersonnelCrawler.crawl()` call: the final
state satisfies the dedup invariant; on success the unique-link count is
the final set size and is bounded by the document tally; the persisted
artefacts are `save_results` of the final state. -/
theorem personnel_crawl_master (env : PersonnelEnv) :
    PInv (personnel_crawl env).state ∧
    (∀ c d u, (personnel_crawl env).result = .success c d u →
        u ≤ d ∧ u = (personnel_crawl env).state.pdfLinksSet.length) ∧
    (∀ s, (personnel_crawl env).saved = some s →
        s = save_results (personnel_crawl env).state) := by
  unfold personnel_crawl
  cases hf : env.fetch env.menuUrl with
  | none =>
    refine ⟨pinv_init, ?_, ?_⟩
    · intro c d u h; cases h
    · intro s h; cases h
  | some menu =>
    by_cases hne : parse_category_links menu = []
    · simp only [hne, if_pos]
      refine ⟨pinv_init, ?_, ?_⟩
      · intro c d u h; cases h
      · intro s h; cases h
    · simp only [hne, if_neg, if_false]
      obtain ⟨hinv, hbound⟩ := personnel_fold_bound env (parse_category_links menu)
      refine ⟨hinv, ?_, ?_⟩
      · intro c d u h
        injection h with h1 h2 h3
        subst h2; subst h3
        exact ⟨hbound, rfl⟩
      · intro s h
        injection h with h1
        exact h1.symm

/-- `charListLt` agrees with the library's lexicographic order on
character lists. -/
theorem charListLt_iff : ∀ l₁ l₂ : List Char, charListLt l₁ l₂ = true ↔ l₁ < l₂ := by
  intro l₁
  induction l₁ with
  | nil =>
    intro l₂
    cases l₂ with
    | nil =>
      simp only [charListLt, Bool.false_eq_true, false_iff]
      intro h; cases h
    | cons b bs =>
      simp only [charListLt, true_iff]
      exact List.Lex.nil
  | cons a as ih =>
    intro l₂
    cases l₂ with
    | nil =>
      simp only [charListLt, Bool.false_eq_true, false_iff]
      intro h; cases h
    | cons b bs =>
      simp only [charListLt, Bool.or_eq_true, Bool.and_eq_true, decide_eq_true_eq]
      constructor
      · rintro (hab | ⟨rfl, h⟩)
        · exact List.Lex.rel hab
        · exact List.Lex.cons ((ih bs).mp h)
      · intro h
        cases h with
        | rel hab => exact Or.inl hab
        | cons h => exact Or.inr ⟨rfl, (ih bs).mpr h⟩

/-- `stringLe` is the library's linear order `≤` on strings
(lexicographic by code point, as Python compares strings). -/
theorem stringLe_iff_le (a b : String) : stringLe a b = true ↔ a ≤ b := by
  rw [stringLe]
  simp only [Bool.or_eq_true, decide_eq_true_eq]
  rw [charListLt_iff, le_iff_lt_or_eq]
  constructor
  · rintro (h | rfl)
    · exact Or.inl (String.lt_iff_toList_lt.mpr h)
    · exact Or.inr rfl
  · rintro (h | rfl)
    · exact Or.inl (String.lt_iff_toList_lt.mp h)
    · exact Or.inr rfl

/-- C5: for any completed Personnel run, the serialized unique-URL list
(the `pdf_links.txt` lines) has no duplicate line, is lexicographically
sorted, and its length is the number of distinct URLs resolved in the run
(the distinct entries of the ghost trace of examined URLs); and every
per-title list in the persisted categories object holds distinct URLs
(its insertion order is by construction the append order of
`_crawl_page`). -/
theorem personnel_saved_links_sorted_nodup (env : PersonnelEnv)
    (s : SavedPersonnel) (h : (personnel_crawl env).saved = some s) :
    s.pdfLines.Nodup ∧
    List.Sorted (fun a b : String => a ≤ b) s.pdfLines ∧
    s.pdfLines.length = (personnel_crawl env).state.examined.dedup.length ∧
    (∀ p ∈ s.categories, (p.2 : List String).Nodup) := by
  obtain ⟨hinv, -, hsave⟩ := personnel_crawl_master env
  have hs := hsave s h
  subst hs
  obtain ⟨h1, h2, h3, h4, h5⟩ := hinv
  simp only [save_results]
  have hperm : (List.insertionSort (fun a b => stringLe a b = true)
      (personnel_crawl env).state.pdfLinksSet).Perm
      (personnel_crawl env).state.pdfLinksSet :=
    List.perm_insertionSort _ _
  haveI htot : IsTotal String (fun a b => stringLe a b = true) :=
    ⟨fun a b => by
      rw [stringLe_iff_le, stringLe_iff_le]
      exact le_total a b⟩
  haveI htrans : IsTrans String (fun a b => stringLe a b = true) :=
    ⟨fun a b c hab hbc => by
      rw [stringLe_iff_le] at *
      exact le_trans hab hbc⟩
  refine ⟨hperm.nodup_iff.mpr h1, ?_, ?_, ?_⟩
  · have hsorted := List.sorted_insertionSort (fun a b => stringLe a b = true)
      (personnel_crawl env).state.pdfLinksSet
    exact hsorted.imp (fun hab => (stringLe_iff_le _ _).mp hab)
  · have hperm2 : (personnel_crawl env).state.pdfLinksSet.Perm
        (personnel_crawl env).state.examined.dedup := by
      apply List.perm_of_nodup_nodup_toFinset_eq h1 (List.nodup_dedup _)
      ext u
      simp only [List.mem_toFinset, List.mem_dedup]
      exact h5 u
    rw [hperm.length_eq, hperm2.length_eq]
  · intro p hp
    exact h3 p hp

/-- C10: in every completed Personnel run, `unique_pdf_links ≤
total_documents` in the returned result (a URL recorded under two titles
counts once per title in the tally but once in the set), and the
`total_documents` field persisted to `personnel_data.json` equals the
global URL-set size `unique_pdf_links`, not the returned tally. -/
theorem personnel_counter_relation (env : PersonnelEnv) (c d u : Nat)
    (h : (personnel_crawl env).result = .success c d u) :
    u ≤ d ∧
    ∀ s, (personnel_crawl env).saved = some s → s.totalDocuments = u := by
  obtain ⟨-, hcnt, hsave⟩ := personnel_crawl_master env
  obtain ⟨hle, hu⟩ := hcnt c d u h
  refine ⟨hle, fun s hs => ?_⟩
  rw [hsave s hs]
  simp only [save_results]
  exact hu.symm

/-- C10 witness: the two-category scenario run, where the returned result
is `success 2 3 3` (so `3 ≤ 3`) and the persisted `total_documents` is
the set size 3. -/
theorem personnel_counter_relation_witness :
    3 ≤ 3 ∧
    (⟨["https://p/d1.pdf", "https://p/d2.pdf", "https://p/d3.pdf"],
      [("Regulation Document",
        ["https://p/d1.pdf", "https://p/d2.pdf", "https://p/d3.pdf"])], 3⟩ :
        SavedPersonnel).totalDocuments = 3 := by
  have H := personnel_counter_relation envTwoCats 2 3 3 (by rfl)
  exact ⟨H.1, H.2 ⟨["https://p/d1.pdf", "https://p/d2.pdf", "https://p/d3.pdf"],
    [("Regulation Document",
      ["https://p/d1.pdf", "https://p/d2.pdf", "https://p/d3.pdf"])], 3⟩ (by rfl)⟩

/-- C1 counterexample: in a news run whose page-1 listing fetch fails
(`envNewsPage1Fails` fails every fetch), `NewsCrawler.crawl` does NOT
return `{success: false, error}` — `_crawl_news_page` absorbs the failure
into an empty page list, the stopping rule breaks out, and the run
reports `success: true` with `total_pages = 1`, `total_articles = 0`. -/
theorem news_page1_fetch_failure_returns_success :
    (news_crawl envNewsPage1Fails).1 = NewsResult.success 1 0 ∧
    ∀ e, NewsResult.success 1 0 ≠ NewsResult.failure e := by
  refine ⟨by rfl, ?_⟩
  intro e h
  cases h

/-- C1 amended: a failure to fetch listing page 1 is absorbed exactly
like any later degradation: the crawl stops after page 1 and returns
`success: true` with `total_pages = 1` and `total_articles = 0`, having
fetched only listing page 1. -/
theorem news_page1_fetch_failure_absorbed (env : NewsEnv)
    (hmp : 0 < env.maxPages)
    (hf : env.fetch (env.categoryUrl ++ "?page=1") = none) :
    news_crawl env = (NewsResult.success 1 0, [1]) := by
  obtain ⟨n, hn⟩ : ∃ n, env.maxPages = n + 1 :=
    ⟨env.maxPages - 1, (Nat.succ_pred_eq_of_pos hmp).symm⟩
  have hurl : env.categoryUrl ++ "?page=" ++ toString (1 : Nat) =
      env.categoryUrl ++ "?page=1" := by
    rw [String.append_assoc]; rfl
  have hpage1 : crawl_news_page env 1 = [] := by
    unfold crawl_news_page
    dsimp only
    rw [hurl, hf]
  unfold news_crawl
  rw [hn]
  simp only [Nat.succ_ne_zero, if_neg, if_false, List.range'_succ]
  rw [news_loop]
  rw [hpage1]
  simp

/-- C1 amended witness: the concrete all-fetches-fail environment. -/
theorem news_page1_fetch_failure_absorbed_witness :
    0 < envNewsPage1Fails.maxPages ∧
    news_crawl envNewsPage1Fails = (NewsResult.success 1 0, [1]) :=
  ⟨by decide, news_page1_fetch_failure_absorbed envNewsPage1Fails
    (by decide) (by rfl)⟩

/-- C6: with `max_pages = 10`, when listing pages 1 and 2 each yield at
least one article and page 3 yields zero, `NewsCrawler.crawl` processes
exactly listing pages 1, 2, 3 (page 4 is never fetched) and reports
`total_pages = 3` with the articles of pages 1 and 2. -/
theorem news_stops_on_first_empty_page (env : NewsEnv)
    (hmp : env.maxPages = 10)
    (h1 : crawl_news_page env 1 ≠ [])
    (h2 : crawl_news_page env 2 ≠ [])
    (h3 : crawl_news_page env 3 = []) :
    news_crawl env =
      (NewsResult.success 3
        ((crawl_news_page env 1).length + (crawl_news_page env 2).length),
        [1, 2, 3]) := by
  unfold news_crawl
  rw [hmp]
  have hrange : List.range' 1 10 = [1, 2, 3, 4, 5, 6, 7, 8, 9, 10] := rfl
  simp only [if_neg, if_false, hrange]
  rw [news_loop, if_neg h1, news_loop, if_neg h2, news_loop, if_pos h3]
  simp [h3]

/-- C6 witness: the concrete stopping environment, with one article on
each of pages 1 and 2 and an empty page 3. -/
theorem news_stops_on_first_empty_page_witness :
    envNewsStops.maxPages = 10 ∧
    news_crawl envNewsStops =
      (NewsResult.success 3
        ((crawl_news_page envNewsStops 1).length +
          (crawl_news_page envNewsStops 2).length),
        [1, 2, 3]) :=
  ⟨rfl, news_stops_on_first_empty_page envNewsStops rfl
    (by decide) (by decide) (by rfl)⟩

/-- C2 counterexample: a personnel run whose menu page IS fetched
successfully but whose `.group a` selector matches nothing does not
complete with `success: true` — the source treats the empty category-link
list as a second terminal failure and returns `success: false` with the
"no category links found" message. -/
theorem personnel_empty_menu_selector_is_failure :
    envMenuNoCategories.fetch envMenuNoCategories.menuUrl = some menuEmptyDoc ∧
    (personnel_crawl envMenuNoCategories).result =
      PersonnelResult.failure "未找到任何類別連結" := by
  exact ⟨by rfl, by rfl⟩

/-- C2 amended: below the menu, a selector matching nothing is zero
results and never aborts; but at the menu level there are exactly two
terminal conditions — failing to fetch the menu page, and fetching it yet
finding zero category anchors.  With the menu fetched and at least one
category anchor, the crawl always completes with `success: true` (and
`total_categories` the number of anchors), whatever happens below. -/
theorem personnel_terminal_failure_conditions :
    (∀ env : PersonnelEnv, ∀ d, env.fetch env.menuUrl = some d →
      parse_category_links d = [] →
      (personnel_crawl env).result = PersonnelResult.failure "未找到任何類別連結") ∧
    (∀ env : PersonnelEnv, env.fetch env.menuUrl = none →
      (personnel_crawl env).result = PersonnelResult.failure "無法取得主選單頁面") ∧
    (∀ env : PersonnelEnv, ∀ d, env.fetch env.menuUrl = some d →
      parse_category_links d ≠ [] →
      ∃ t u, (personnel_crawl env).result =
        PersonnelResult.success (parse_category_links d).length t u) := by
  refine ⟨?_, ?_, ?_⟩
  · intro env d hf hp
    unfold personnel_crawl
    rw [hf]
    simp only [hp, if_pos]
  · intro env hf
    unfold personnel_crawl
    rw [hf]
  · intro env d hf hp
    unfold personnel_crawl
    rw [hf]
    simp only [hp, if_neg, if_false]
    exact ⟨_, _, rfl⟩

/-- C2 amended witness: the empty-menu environment hits the second
terminal condition; the two-category environment hits the success case. -/
theorem personnel_terminal_failure_conditions_witness :
    (personnel_crawl envMenuNoCategories).result =
      PersonnelResult.failure "未找到任何類別連結" ∧
    ∃ t u, (personnel_crawl envTwoCats).result =
      PersonnelResult.success (parse_category_links menuTwoCats).length t u :=
  ⟨personnel_terminal_failure_conditions.1 envMenuNoCategories menuEmptyDoc
      (by rfl) (by rfl),
    personnel_terminal_failure_conditions.2.2 envTwoCats menuTwoCats
      (by rfl) (by decide)⟩

/-- C3 counterexample: for the placeholder href `#` with no usable
onclick redirect, `extract_href` does not return an explicit absence — it
returns the placeholder `#` itself. -/
theorem extract_href_hash_placeholder_returned :
    extract_href anchorHashPlain "https://x" = some "#" ∧
    extract_href anchorHashPlain "https://x" ≠ none := by
  refine ⟨by rfl, ?_⟩
  intro h
  rw [show extract_href anchorHashPlain "https://x" = some "#" from rfl] at h
  cases h

/-- C3 amended: with base URL `https://x`, a root-relative href `/a/b`
resolves to `https://x/a/b`; an absolute href is returned unchanged; href
`#` with onclick `location.href='/c'` resolves to `https://x/c`; a
missing href yields `none`; but href `#` with no usable onclick redirect
is returned as the placeholder `#`, not as an absence. -/
theorem extract_href_normalization :
    extract_href anchorRootRel "https://x" = some "https://x/a/b" ∧
    extract_href anchorAbsolute "https://x" = some "https://y/z" ∧
    extract_href anchorHashOnclick "https://x" = some "https://x/c" ∧
    extract_href anchorNoHref "https://x" = none ∧
    extract_href anchorHashPlain "https://x" = some "#" :=
  ⟨by rfl, by rfl, by rfl, by rfl, by rfl⟩

/-- C8: partial-failure containment scenario — two categories; category
A's two pages serve the same three URLs under one title (page 2 all
duplicates, silently skipped); category B's page fetch fails entirely
(isolated, zero documents); the run continues past B and returns
`{success: true, total_categories: 2, total_documents: 3,
unique_pdf_links: 3}`. -/
theorem personnel_partial_failure_scenario :
    (personnel_crawl envTwoCats).result = PersonnelResult.success 2 3 3 ∧
    envTwoCats.fetch "https://p/catB" = none := by
  exact ⟨by rfl, by rfl⟩

/-- Against an always-failing oracle, the retry loop starting at attempt
`a` with `n + 1` iterations left returns `None` with the all-fail trace. -/
theorem make_request_go_all_fail (oracle : Nat → AttemptOutcome)
    (pd : Bool) (h : ∀ i, oracle i = .failed) :
    ∀ n a, make_request_go oracle pd a (n + 1) = (none, allFailEvents a n) := by
  intro n
  induction n with
  | zero =>
    intro a
    rw [make_request_go, h a]
    rfl
  | succ m ih =>
    intro a
    rw [make_request_go, h a]
    simp only
    rw [ih (a + 1)]
    rfl

theorem countAttempts_allFail : ∀ n a, countAttempts (allFailEvents a n) = n + 1 := by
  intro n
  induction n with
  | zero => intro a; rfl
  | succ m ih =>
    intro a
    rw [allFailEvents]
    simp only [countAttempts, List.countP_cons] at ih ⊢
    rw [ih (a + 1)]
    simp

theorem countRetrySleeps_allFail : ∀ n a, countRetrySleeps (allFailEvents a n) = n := by
  intro n
  induction n with
  | zero => intro a; rfl
  | succ m ih =>
    intro a
    rw [allFailEvents]
    simp only [countRetrySleeps, List.countP_cons] at ih ⊢
    rw [ih (a + 1)]
    simp

/-- C4: for `max_retries = N`, when every attempt fails with a
transport-level error (timeout, connection failure or non-2xx all raise
`requests.RequestException`, the one class the loop catches, so no
exception escapes the call), `make_request` performs exactly `N + 1`
request attempts with one `retry_delay` sleep between consecutive
attempts (the trace is `allFailEvents 0 N`, which interleaves them), and
returns `None`. -/
theorem make_request_exhausts_retries (oracle : Nat → AttemptOutcome)
    (N : Nat) (pd : Bool) (h : ∀ i, oracle i = .failed) :
    make_request oracle N pd = (none, allFailEvents 0 N) ∧
    countAttempts (allFailEvents 0 N) = N + 1 ∧
    countRetrySleeps (allFailEvents 0 N) = N :=
  ⟨make_request_go_all_fail oracle pd h N 0,
    countAttempts_allFail N 0, countRetrySleeps_allFail N 0⟩

/-- C4 witness: `max_retries = 2` against the always-failing oracle:
three attempts, two retry sleeps, `None`. -/
theorem make_request_exhausts_retries_witness :
    make_request alwaysFailOracle 2 true = (none, allFailEvents 0 2) ∧
    countAttempts (allFailEvents 0 2) = 3 ∧
    countRetrySleeps (allFailEvents 0 2) = 2 :=
  make_request_exhausts_retries alwaysFailOracle 2 true (fun _ => rfl)

/-- C7: every degraded input of `fetch_ajax_attachments` yields the empty
attachment list (contributing zero attachments) and a distinct log
reason; the embedding is total, mirroring the source's `try/except` arms
— no exception escapes.  Cases: missing metadata payload (absent or
empty attribute), malformed payload, transport failure of the POST,
non-JSON response body, and a JSON object lacking the `#rndbox_body`
fragment key. -/
theorem ajax_failures_degrade_to_empty :
    (∀ node base cur title exts post, node.dataRequestData = none →
      fetch_ajax_attachments node base cur title exts post =
        ([], AjaxLog.missingRequestData)) ∧
    (∀ node base cur title exts post, node.dataRequestData = some "" →
      fetch_ajax_attachments node base cur title exts post =
        ([], AjaxLog.missingRequestData)) ∧
    (∀ node base cur title exts post ds, node.dataRequestData = some ds →
      ds ≠ "" → parse_request_data ds = none →
      fetch_ajax_attachments node base cur title exts post =
        ([], AjaxLog.unparsableRequestData)) ∧
    (∀ node base cur title exts post ds parts,
      node.dataRequestData = some ds → ds ≠ "" →
      parse_request_data ds = some parts →
      post cur parts = AjaxResponse.transportError →
      fetch_ajax_attachments node base cur title exts post =
        ([], AjaxLog.requestFailed)) ∧
    (∀ node base cur title exts post ds parts,
      node.dataRequestData = some ds → ds ≠ "" →
      parse_request_data ds = some parts →
      post cur parts = AjaxResponse.invalidJson →
      fetch_ajax_attachments node base cur title exts post =
        ([], AjaxLog.invalidJsonBody)) ∧
    (∀ node base cur title exts post ds parts fields,
      node.dataRequestData = some ds → ds ≠ "" →
      parse_request_data ds = some parts →
      post cur parts = AjaxResponse.jsonObj fields →
      fields.lookup "#rndbox_body" = none →
      fetch_ajax_attachments node base cur title exts post =
        ([], AjaxLog.missingFragmentKey)) ∧
    ([AjaxLog.missingRequestData, AjaxLog.unparsableRequestData,
      AjaxLog.requestFailed, AjaxLog.invalidJsonBody,
      AjaxLog.missingFragmentKey] : List AjaxLog).Nodup := by
  refine ⟨?_, ?_, ?_, ?_, ?_, ?_, by decide⟩
  · intro node base cur title exts post hd
    unfold fetch_ajax_attachments
    rw [hd]
  · intro node base cur title exts post hd
    unfold fetch_ajax_attachments
    rw [hd]
    simp
  · intro node base cur title exts post ds hd hne hp
    unfold fetch_ajax_attachments
    rw [hd]
    simp only [hne, if_neg, if_false, hp]
  · intro node base cur title exts post ds parts hd hne hp hpost
    unfold fetch_ajax_attachments
    rw [hd]
    simp only [hne, if_neg, if_false, hp, hpost]
  · intro node base cur title exts post ds parts hd hne hp hpost
    unfold fetch_ajax_attachments
    rw [hd]
    simp only [hne, if_neg, if_false, hp, hpost]
  · intro node base cur title exts post ds parts fields hd hne hp hpost hkey
    unfold fetch_ajax_attachments
    rw [hd]
    simp only [hne, if_neg, if_false, hp, hpost, hkey]

/-- C7 witness: each degraded case exercised on a concrete node/oracle:
marker node without payload, with the malformed payload `id:7:extra`,
and with the well-formed payload `id:7,mode:list` against a failing
transport, a non-JSON body, and a JSON object without `#rndbox_body`. -/
theorem ajax_failures_degrade_to_empty_witness :
    fetch_ajax_attachments ajaxNodeNoData "https://p" "https://p/x" "T"
      [".pdf"] (fun _ _ => .transportError) = ([], AjaxLog.missingRequestData) ∧
    fetch_ajax_attachments ajaxNodeBadData "https://p" "https://p/x" "T"
      [".pdf"] (fun _ _ => .transportError) = ([], AjaxLog.unparsableRequestData) ∧
    fetch_ajax_attachments ajaxNodeGoodData "https://p" "https://p/x" "T"
      [".pdf"] (fun _ _ => .transportError) = ([], AjaxLog.requestFailed) ∧
    fetch_ajax_attachments ajaxNodeGoodData "https://p" "https://p/x" "T"
      [".pdf"] (fun _ _ => .invalidJson) = ([], AjaxLog.invalidJsonBody) ∧
    fetch_ajax_attachments ajaxNodeGoodData "https://p" "https://p/x" "T"
      [".pdf"] (fun _ _ => .jsonObj [("x", ["/f.pdf"])]) =
        ([], AjaxLog.missingFragmentKey) :=
  ⟨ajax_failures_degrade_to_empty.1 ajaxNodeNoData "https://p" "https://p/x"
      "T" [".pdf"] _ rfl,
    ajax_failures_degrade_to_empty.2.2.1 ajaxNodeBadData "https://p"
      "https://p/x" "T" [".pdf"] _ "id:7:extra" rfl (by decide) (by rfl),
    ajax_failures_degrade_to_empty.2.2.2.1 ajaxNodeGoodData "https://p"
      "https://p/x" "T" [".pdf"] _ "id:7,mode:list"
      [("id", "7"), ("mode", "list")] rfl (by decide) (by rfl) rfl,
    ajax_failures_degrade_to_empty.2.2.2.2.1 ajaxNodeGoodData "https://p"
      "https://p/x" "T" [".pdf"] _ "id:7,mode:list"
      [("id", "7"), ("mode", "list")] rfl (by decide) (by rfl) rfl,
    ajax_failures_degrade_to_empty.2.2.2.2.2.1 ajaxNodeGoodData "https://p"
      "https://p/x" "T" [".pdf"] _ "id:7,mode:list"
      [("id", "7"), ("mode", "list")] [("x", ["/f.pdf"])]
      rfl (by decide) (by rfl) rfl (by rfl)⟩

/-- `foldl Nat.max` computes an upper bound that is the seed or an
element. -/
theorem foldl_max_spec : ∀ (l : List Nat) (a : Nat),
    a ≤ l.foldl Nat.max a ∧ (∀ p ∈ l, p ≤ l.foldl Nat.max a) ∧
    (l.foldl Nat.max a = a ∨ l.foldl Nat.max a ∈ l) := by
  intro l
  induction l with
  | nil =>
    intro a
    refine ⟨le_refl a, ?_, Or.inl rfl⟩
    intro p hp; cases hp
  | cons b l ih =>
    intro a
    obtain ⟨h1, h2, h3⟩ := ih (Nat.max a b)
    rw [List.foldl_cons]
    refine ⟨le_trans (Nat.le_max_left a b) h1, ?_, ?_⟩
    · intro p hp
      rcases List.mem_cons.mp hp with hpb | hp
      · rw [hpb]
        exact le_trans (Nat.le_max_right a b) h1
      · exact h2 p hp
    · rcases h3 with he | hm
      · rw [he]
        by_cases hab : a ≤ b
        · right
          have hb : Nat.max a b = b := by simp [Nat.max, hab]
          rw [hb]; exact List.mem_cons_self _ _
        · left
          simp only [Nat.max]
          exact max_eq_left (le_of_not_le hab)
      · right; exact List.mem_cons_of_mem _ hm

/-- C9: `get_max_page` returns the maximum of the page numbers extracted
from the anchors whose href carries the page query parameter
(`page_numbers` is exactly the `pages` list the source computes from the
`a[href*='?page=']` selection and the `[?&]page=(\d+)` pattern): with no
matching anchor it returns the default 1; with matches it returns a
matched value no smaller than every other; in particular anchors carrying
the values {1,3,5,2,7,4} in any order yield 7. -/
theorem get_max_page_is_max :
    (∀ soup : Doc, page_numbers soup = [] → get_max_page soup = 1) ∧
    (∀ soup : Doc, page_numbers soup ≠ [] →
      get_max_page soup ∈ page_numbers soup ∧
      ∀ p ∈ page_numbers soup, p ≤ get_max_page soup) ∧
    (∀ soup : Doc, (page_numbers soup).Perm [1, 3, 5, 2, 7, 4] →
      get_max_page soup = 7) := by
  have hmain : ∀ soup : Doc, page_numbers soup ≠ [] →
      get_max_page soup ∈ page_numbers soup ∧
      ∀ p ∈ page_numbers soup, p ≤ get_max_page soup := by
    intro soup hne
    unfold get_max_page
    simp only [hne, if_neg, if_false]
    obtain ⟨h1, h2, h3⟩ := foldl_max_spec (page_numbers soup) 0
    refine ⟨?_, h2⟩
    rcases h3 with he | hm
    · cases hl : page_numbers soup with
      | nil => exact absurd hl hne
      | cons p ps =>
        rw [hl] at he h2
        have hp : p ≤ (p :: ps).foldl Nat.max 0 :=
          h2 p (List.mem_cons_self _ _)
        rw [he] at hp
        have hp0 : p = 0 := Nat.le_zero.mp hp
        rw [he, hp0]
        exact List.mem_cons_self _ _
    · exact hm
  refine ⟨?_, hmain, ?_⟩
  · intro soup he
    unfold get_max_page
    simp only [he, if_pos]
  · intro soup hperm
    have hne : page_numbers soup ≠ [] := by
      intro he
      rw [he] at hperm
      have := hperm.length_eq
      simp at this
    obtain ⟨hmem, hub⟩ := hmain soup hne
    have h7 : 7 ∈ page_numbers soup := hperm.mem_iff.mpr (by decide)
    have hle : get_max_page soup ≤ 7 := by
      have hx := hperm.mem_iff.mp hmem
      simp only [List.mem_cons, List.mem_singleton, List.not_mem_nil,
        or_false] at hx
      rcases hx with h | h | h | h | h | h <;> omega
    exact le_antisymm hle (hub 7 h7)

/-- C9 witness: an anchor set carrying pages {1,3,5,2,7,4} shuffled
resolves to 7; a page with anchors but no page-parameter anchor resolves
to the default 1. -/
theorem get_max_page_is_max_witness :
    get_max_page docSevenPages = 7 ∧ get_max_page docNoPageAnchors = 1 :=
  ⟨get_max_page_is_max.2.2 docSevenPages (by decide),
    get_max_page_is_max.1 docNoPageAnchors (by rfl)⟩

/-- C5 witness: the two-category scenario run, whose persisted unique-URL
list is the three PDF links sorted, with the per-title list
duplicate-free. -/
theorem personnel_saved_links_sorted_nodup_witness :
    (["https://p/d1.pdf", "https://p/d2.pdf", "https://p/d3.pdf"] :
        List String).Nodup ∧
    List.Sorted (fun a b : String => a ≤ b)
      ["https://p/d1.pdf", "https://p/d2.pdf", "https://p/d3.pdf"] ∧
    (["https://p/d1.pdf", "https://p/d2.pdf", "https://p/d3.pdf"] :
        List String).length =
      (personnel_crawl envTwoCats).state.examined.dedup.length ∧
    (["https://p/d1.pdf", "https://p/d2.pdf", "https://p/d3.pdf"] :
        List String).Nodup := by
  have H := personnel_saved_links_sorted_nodup envTwoCats
    ⟨["https://p/d1.pdf", "https://p/d2.pdf", "https://p/d3.pdf"],
      [("Regulation Document",
        ["https://p/d1.pdf", "https://p/d2.pdf", "https://p/d3.pdf"])], 3⟩ (by rfl)
  exact ⟨H.1, H.2.1, H.2.2.1,
    H.2.2.2 ("Regulation Document",
      ["https://p/d1.pdf", "https://p/d2.pdf", "https://p/d3.pdf"]) (by simp)⟩
